import Mathlib

/-!
Verification of the configuration-driven component resolution and
dependency-injection subsystem of the `learn_ai_agents` repository:
the settings loader (`settings.py`), the reference resolver
(`AppSettings.resolve_ref`), and the three bootstrap containers
(`ComponentsContainer`, `AgentsContainer`, `UseCasesContainer`).

Python dictionaries are modelled as association lists preserving
insertion order with unique keys; Python strings as Lean `String`
(operated on through `String.data` so that everything reduces in the
kernel); exceptions as `Except`; the dynamic behaviour of a loaded
class (its `build`/`create` factories and its constructor) as a record
of call oracles.  Recursive `get` (through `_ref` parameters) is
embedded with explicit fuel.
-/

namespace LearnAiAgents

/-! ## Generic helpers: Python `dict` as ordered association list -/

/-- `d.get(k)` on a Python dict modelled as an ordered association list. -/
def lookupL {α : Type} : List (String × α) → String → Option α
  | [], _ => none
  | (k2, v) :: rest, k => if k2 = k then some v else lookupL rest k

/-- `d[k] = v` on a Python dict: overwrite in place, else append (insertion order). -/
def dictSet {α : Type} : List (String × α) → String → α → List (String × α)
  | [], k, v => [(k, v)]
  | (k2, w) :: rest, k, v =>
    if k2 = k then (k, v) :: rest else (k2, w) :: dictSet rest k v

/-- `d.update(e)` on a Python dict: repeated assignment of each entry of `e`. -/
def dictUpdate {α : Type} (d e : List (String × α)) : List (String × α) :=
  e.foldl (fun acc kv => dictSet acc kv.1 kv.2) d

/-! ## String helpers (kernel-reducible char-list versions of the
Python string operations the subsystem uses) -/

/-- Whether the pattern is a prefix of the text (char lists). -/
def leadsWith : List Char → List Char → Bool
  | [], _ => true
  | _ :: _, [] => false
  | x :: xs, y :: ys => x = y && leadsWith xs ys

/-- Whether the pattern occurs as a contiguous substring of the text
(Python `pat in text`). -/
def occursIn (pat : List Char) : List Char → Bool
  | [] => leadsWith pat []
  | y :: ys => leadsWith pat (y :: ys) || occursIn pat ys

/-- Python `text.split(sep)` for a one-character separator: accumulator form. -/
def splitOnCharAux (c : Char) : List Char → List Char → List String
  | [], acc => [String.mk acc.reverse]
  | x :: xs, acc =>
    if x = c then String.mk acc.reverse :: splitOnCharAux c xs []
    else splitOnCharAux c xs (x :: acc)

/-- Python `s.split(".")`-style split on a single character; `"".split` gives `[""]`. -/
def splitOnChar (c : Char) (s : String) : List String :=
  splitOnCharAux c s.data []

/-- `ref.replace("/", ".").replace("-", ".")`: both patterns are single
characters, so each `str.replace` is a character map. -/
def normalizeRef (s : String) : String :=
  String.mk ((s.data.map (fun ch => if ch = '/' then '.' else ch)).map
    (fun ch => if ch = '-' then '.' else ch))

/-- Python `key.endswith("_ref")`. -/
def endsWithRefSuffix (k : String) : Bool :=
  k.data.reverse.take 4 = ['f', 'e', 'r', '_']

/-- Python `key[:-4]`: drop the last four characters. -/
def dropRefSuffix (k : String) : String :=
  String.mk (k.data.take (k.data.length - 4))

/-- Python `s.rstrip("\n")`: remove every trailing newline character. -/
def rstripNewlines (s : String) : String :=
  String.mk (s.data.reverse.dropWhile (fun c => c = '\n')).reverse

/-! ## `expandvars_with_secrets` (settings.py lines 46-78)

The raw YAML text is viewed through the regex `\$(\w+)|\$\{([^}]+)\}`
as an alternation of literal runs and placeholder matches; a
placeholder token carries the variable name and the full matched text
`m.group(0)` (returned unchanged when the variable resolves nowhere).
-/

/-- One regex-level token of the scanned YAML text. -/
inductive YamlToken where
  /-- a run of text not matched by the variable regex -/
  | lit (s : String)
  /-- a `$VAR` or the brace form placeholder: variable name and the
  original matched text `m.group(0)` -/
  | var (name : String) (matched : String)
deriving DecidableEq

/-- The three read-only value sources visible to expansion:
`os.environ`, the parsed `.env` values, and the secrets directory
(`secretsFiles n` is the contents of `<secrets_dir>/<n>` when that
path is a regular file). -/
structure ExpandEnv where
  osEnv : String → Option String
  dotenv : String → Option String
  secretsFiles : String → Option String

/-- `ChainMap(os.environ, dotenv_vars).get(var)`: the OS environment
wins on collision. -/
def chainGet (e : ExpandEnv) (v : String) : Option String :=
  match e.osEnv v with
  | some x => some x
  | none => e.dotenv v

/-- The `repl` callback of `expandvars_with_secrets`: env mapping
first, then the secrets file (trailing newlines stripped when the
`strip` flag is set, as it is by default), else the matched text
unchanged. -/
def replToken (e : ExpandEnv) (strip : Bool) : YamlToken → String
  | YamlToken.lit s => s
  | YamlToken.var name matched =>
    match chainGet e name with
    | some v => v
    | none =>
      match e.secretsFiles name with
      | some contents => if strip then rstripNewlines contents else contents
      | none => matched

/-- `expandvars_with_secrets` over the tokenised text: substitute every
placeholder via `replToken` and concatenate (`re.sub` reassembles the
replacements with the unmatched runs in order). -/
def expandvars_with_secrets (e : ExpandEnv) (strip : Bool) : List YamlToken → String
  | [] => ""
  | t :: ts => replToken e strip t ++ expandvars_with_secrets e strip ts

/-! ## `AppSettings.settings_customise_sources` (settings.py lines 391-427) -/

/-- The five pydantic settings sources named by the method signature. -/
inductive SettingsSource where
  | initSettings
  | envSettings
  | dotenvSettings
  | fileSecretSettings
  | yamlSource
deriving DecidableEq

/-- The tuple of sources actually returned, in priority order (earlier =
higher priority).  The code builds `[init_settings, file_secret_settings]`
and appends the YAML source only when no constructor kwargs were given;
`env_settings` and `dotenv_settings` are never part of the returned tuple
(dotenv values reach only the `${VAR}` expansion inside the YAML source). -/
def settings_customise_sources (initKwargsEmpty : Bool) : List SettingsSource :=
  let sources := [SettingsSource.initSettings, SettingsSource.fileSecretSettings]
  if initKwargsEmpty then sources ++ [SettingsSource.yamlSource] else sources

/-! ## Configuration tree and `resolve_ref` (settings.py lines 429-531) -/

/-- A raw parameter value as it sits in the validated tree: plain
scalars, or a pydantic `SecretStr` wrapping the underlying secret. -/
inductive PVal where
  | str (s : String)
  | int (n : Int)
  | bool (b : Bool)
  | secret (s : String)
deriving DecidableEq

/-- `ComponentConstructor`: `module_class` plus the optional family-level
`api_key` (a `SecretStr`, modelled by its underlying string). -/
structure ComponentConstructorM where
  module_class : String
  api_key : Option String
deriving DecidableEq

/-- `ComponentInstance`: the `params` dict of one named instance. -/
structure ComponentInstanceM where
  params : List (String × PVal)
deriving DecidableEq

/-- `ProviderFamily`: a constructor plus the named instances. -/
structure ProviderFamilyM where
  constructor : ComponentConstructorM
  instances : List (String × ComponentInstanceM)
deriving DecidableEq

/-- `ComponentsTree = dict[type, dict[framework, dict[family, ProviderFamily]]]`. -/
def ComponentsTree : Type :=
  List (String × List (String × List (String × ProviderFamilyM)))

/-- A reference either one of the component groups declared for an
agent: a single reference string or an alias-to-reference dict. -/
inductive ComponentRefs where
  | single (ref : String)
  | multi (m : List (String × String))
deriving DecidableEq

/-- `AgentConstructor`: module class, optional component groups
(after `model_dump(exclude_none=True)`), optional flat config dict.
(The `info` metadata block carries no behaviour and is not modelled.) -/
structure AgentConstructorM where
  module_class : String
  components : Option (List (String × ComponentRefs))
  config : Option (List (String × PVal))
deriving DecidableEq

/-- `AgentConfig` (metadata omitted). -/
structure AgentConfigM where
  constructor : AgentConstructorM
deriving DecidableEq

/-- `AgentsTree = dict[framework, dict[agent_name, AgentConfig]]`. -/
def AgentsTree : Type := List (String × List (String × AgentConfigM))

/-- `UseCaseConstructor`: module class, optional component groups
(every group is an alias-to-reference dict), optional config dict. -/
structure UseCaseConstructorM where
  module_class : String
  components : Option (List (String × List (String × String)))
  config : Option (List (String × PVal))
deriving DecidableEq

/-- `UseCaseConfig` (metadata omitted). -/
structure UseCaseConfigM where
  constructor : UseCaseConstructorM
deriving DecidableEq

/-- `UseCasesTree = dict[use_case_name, UseCaseConfig]`. -/
def UseCasesTree : Type := List (String × UseCaseConfigM)

/-- The `AppSettings` fields the resolver reads. -/
structure AppSettingsM where
  components : ComponentsTree
  agents : AgentsTree
  use_cases : UseCasesTree

/-- The exceptions `resolve_ref` raises: `ValueError` for a malformed
reference or reference type, `KeyError` naming the missing path segment. -/
inductive ResolveError where
  | invalidRef (ref : String)
  | invalidRefType (t : String)
  | notFound (segment : String)
deriving DecidableEq

/-- `_resolve_component`: split on `.`, require exactly 4 parts, walk
`components[type][framework][family].instances[instance]`, and build
the config dict as the instance params plus the family `api_key`
(as a `SecretStr`) when one is declared. -/
def _resolve_component (tree : ComponentsTree) (ref : String) :
    Except ResolveError (String × List (String × PVal)) :=
  match splitOnChar '.' ref with
  | [comp_type, framework, family, inst] =>
    match lookupL tree comp_type with
    | none => Except.error (ResolveError.notFound comp_type)
    | some frameworks =>
      match lookupL frameworks framework with
      | none => Except.error (ResolveError.notFound framework)
      | some families =>
        match lookupL families family with
        | none => Except.error (ResolveError.notFound family)
        | some pf =>
          match lookupL pf.instances inst with
          | none => Except.error (ResolveError.notFound inst)
          | some ic =>
            let cfg :=
              match pf.constructor.api_key with
              | some k => dictSet ic.params "api_key" (PVal.secret k)
              | none => ic.params
            Except.ok (pf.constructor.module_class, cfg)
  | _ => Except.error (ResolveError.invalidRef ref)

/-- `_resolve_agent`: strip a leading `agents.`, require exactly 2
parts, look up `agents[framework][agent_name]`. -/
def _resolve_agent (tree : AgentsTree) (ref : String) : Except ResolveError AgentConfigM :=
  let r := if leadsWith "agents.".data ref.data then String.mk (ref.data.drop 7) else ref
  match splitOnChar '.' r with
  | [framework, agent_name] =>
    match lookupL tree framework with
    | none => Except.error (ResolveError.notFound framework)
    | some agents =>
      match lookupL agents agent_name with
      | none => Except.error (ResolveError.notFound agent_name)
      | some cfg => Except.ok cfg
  | _ => Except.error (ResolveError.invalidRef r)

/-- `_resolve_use_case`: the reference is the registry key. -/
def _resolve_use_case (tree : UseCasesTree) (ref : String) : Except ResolveError UseCaseConfigM :=
  match lookupL tree ref with
  | none => Except.error (ResolveError.notFound ref)
  | some cfg => Except.ok cfg

/-- The union result type of `resolve_ref` (Python returns `Any`). -/
inductive Resolved where
  | component (module_class : String) (cfg : List (String × PVal))
  | agent (cfg : AgentConfigM)
  | use_case (cfg : UseCaseConfigM)
deriving DecidableEq

/-- `AppSettings.resolve_ref`: normalise separators to dots and dispatch
on the declared reference type. -/
def resolve_ref (s : AppSettingsM) (ref : String) (ref_type : String) :
    Except ResolveError Resolved :=
  let normalized_ref := normalizeRef ref
  if ref_type = "component" then
    match _resolve_component s.components normalized_ref with
    | Except.ok (mc, cfg) => Except.ok (Resolved.component mc cfg)
    | Except.error e => Except.error e
  else if ref_type = "agent" then
    match _resolve_agent s.agents normalized_ref with
    | Except.ok cfg => Except.ok (Resolved.agent cfg)
    | Except.error e => Except.error e
  else if ref_type = "use_case" then
    match _resolve_use_case s.use_cases normalized_ref with
    | Except.ok cfg => Except.ok (Resolved.use_case cfg)
    | Except.error e => Except.error e
  else Except.error (ResolveError.invalidRefType ref_type)

/-! ## `ComponentsContainer._instantiate` strategy chain
(components_container.py lines 118-145)

A dynamically imported class is modelled by the observable behaviour of
its callable surface at the (already resolved) keyword arguments:
whether a callable `build` / `create` attribute exists and what each
call does.  A call either returns normally, raises `TypeError` with a
message, or raises some other exception. -/

/-- Outcome of calling one factory/constructor with the resolved config. -/
inductive Outcome where
  | ok
  | typeError (msg : String)
  | exn (msg : String)
deriving DecidableEq

/-- A resolved parameter value handed to the constructor: secrets are
already unwrapped to plain strings and `_ref` parameters replaced by
live instances (identified by their id). -/
inductive RVal where
  | str (s : String)
  | int (n : Int)
  | bool (b : Bool)
  | inst (i : Nat)
deriving DecidableEq

/-- The callable surface of an imported class: optional `build` and
`create` factory attributes, the constructor called with `**cfg`, and
the constructor called with the single `config=cfg` argument. -/
structure Cls where
  buildAttr : Option (List (String × RVal) → Outcome)
  createAttr : Option (List (String × RVal) → Outcome)
  ctorKwargs : List (String × RVal) → Outcome
  ctorConfig : List (String × RVal) → Outcome

/-- Which of the four instantiation strategies produced the instance. -/
inductive Strategy where
  | build
  | create
  | ctorKwargs
  | ctorConfig
deriving DecidableEq

/-- What `_instantiate` does after the config is resolved: the instance
together with the successful strategy, or the propagated exception. -/
inductive ChainResult where
  | ok (s : Strategy)
  | typeError (msg : String)
  | exn (msg : String)
deriving DecidableEq

/-- Lift the outcome of a single strategy call into the chain result. -/
def liftOutcome (s : Strategy) : Outcome → ChainResult
  | Outcome.ok => ChainResult.ok s
  | Outcome.typeError m => ChainResult.typeError m
  | Outcome.exn m => ChainResult.exn m

/-- Python `"unexpected keyword argument" in str(e)`. -/
def msgIndicatesUnexpectedKw (msg : String) : Bool :=
  occursIn "unexpected keyword argument".data msg.data

/-- The strategy chain of `_instantiate` (lines 120-145): use `build` if
it is a callable attribute, else `create`; else call the constructor
with `**cfg`, and on a `TypeError` whose message indicates an
unexpected keyword argument retry with `config=cfg` (re-raising the
original `TypeError` when the retry also raises `TypeError`); every
other exception propagates unchanged. -/
def instantiateChain (cls : Cls) (cfg : List (String × RVal)) : ChainResult :=
  match cls.buildAttr with
  | some f => liftOutcome Strategy.build (f cfg)
  | none =>
    match cls.createAttr with
    | some f => liftOutcome Strategy.create (f cfg)
    | none =>
      match cls.ctorKwargs cfg with
      | Outcome.ok => ChainResult.ok Strategy.ctorKwargs
      | Outcome.typeError m =>
        if msgIndicatesUnexpectedKw m then
          match cls.ctorConfig cfg with
          | Outcome.ok => ChainResult.ok Strategy.ctorConfig
          | Outcome.typeError _ => ChainResult.typeError m
          | Outcome.exn m2 => ChainResult.exn m2
        else ChainResult.typeError m
      | Outcome.exn m => ChainResult.exn m

/-! ## `ComponentsContainer.get` (components_container.py lines 54-145)

The container state is the cache (normalised reference to instance id)
plus a counter that both numbers fresh instances and counts how many
instantiations have happened.  Recursion through `_ref` parameters is
given explicit fuel. -/

/-- The environment a container closes over: the components tree of its
settings and the importable classes (`import_class_from_string`). -/
structure ContainerEnv where
  components : ComponentsTree
  classes : String → Option Cls

/-- Mutable state of `ComponentsContainer`: the `_cache` dict plus the
number of instantiations performed so far (fresh instance ids). -/
structure ContainerState where
  cache : List (String × Nat)
  nextId : Nat
deriving DecidableEq

/-- Exceptions out of `get`. -/
inductive CErr where
  | resolveErr (e : ResolveError)
  | importFailed (module_class : String)
  | typeErr (msg : String)
  | exn (msg : String)
  | fuelExhausted
deriving DecidableEq

/-- The config-resolution loop at the top of `_instantiate` (lines
102-114), parametrised by the recursive `get` at the smaller fuel: a
`SecretStr` value is unwrapped; otherwise a string value under a key
ending in `_ref` is resolved to an instance and the suffix stripped;
anything else is copied through. -/
def resolveCfgWith
    (getF : ContainerState → String → Except CErr (Nat × ContainerState)) :
    ContainerState → List (String × PVal) →
    Except CErr (List (String × RVal) × ContainerState)
  | st, [] => Except.ok ([], st)
  | st, (k, PVal.secret s) :: rest =>
    match resolveCfgWith getF st rest with
    | Except.ok (tl, st2) => Except.ok ((k, RVal.str s) :: tl, st2)
    | Except.error e => Except.error e
  | st, (k, PVal.str s) :: rest =>
    if endsWithRefSuffix k then
      match getF st s with
      | Except.ok (i, st2) =>
        match resolveCfgWith getF st2 rest with
        | Except.ok (tl, st3) => Except.ok ((dropRefSuffix k, RVal.inst i) :: tl, st3)
        | Except.error e => Except.error e
      | Except.error e => Except.error e
    else
      match resolveCfgWith getF st rest with
      | Except.ok (tl, st2) => Except.ok ((k, RVal.str s) :: tl, st2)
      | Except.error e => Except.error e
  | st, (k, PVal.int n) :: rest =>
    match resolveCfgWith getF st rest with
    | Except.ok (tl, st2) => Except.ok ((k, RVal.int n) :: tl, st2)
    | Except.error e => Except.error e
  | st, (k, PVal.bool b) :: rest =>
    match resolveCfgWith getF st rest with
    | Except.ok (tl, st2) => Except.ok ((k, RVal.bool b) :: tl, st2)
    | Except.error e => Except.error e

/-- `ComponentsContainer.get` with explicit fuel bounding the nesting
depth of `_ref` resolution: normalise the key, return the cached
instance if present, else resolve the reference as a component
(`resolve_ref(ref, "component")`), resolve its config, import the
class, run the strategy chain, and cache the fresh instance under the
normalised key. -/
def getFuel (env : ContainerEnv) : Nat → ContainerState → String →
    Except CErr (Nat × ContainerState)
  | 0, _, _ => Except.error CErr.fuelExhausted
  | Nat.succ n, st, ref =>
    let key := normalizeRef ref
    match lookupL st.cache key with
    | some v => Except.ok (v, st)
    | none =>
      match _resolve_component env.components (normalizeRef ref) with
      | Except.error e => Except.error (CErr.resolveErr e)
      | Except.ok (module_class, cfg) =>
        match resolveCfgWith (getFuel env n) st cfg with
        | Except.error e => Except.error e
        | Except.ok (rcfg, st2) =>
          match env.classes module_class with
          | none => Except.error (CErr.importFailed module_class)
          | some cls =>
            match instantiateChain cls rcfg with
            | ChainResult.ok _ =>
              Except.ok (st2.nextId,
                ContainerState.mk ((key, st2.nextId) :: st2.cache) (st2.nextId + 1))
            | ChainResult.typeError m => Except.error (CErr.typeErr m)
            | ChainResult.exn m => Except.error (CErr.exn m)

/-! ## `ComponentsContainer.shutdown` (components_container.py lines 147-168)

Each cached component is modelled by whether it has `aclose` / `close`
attributes and what each raises when called; the observable behaviour
of `shutdown` is the trace of hook invocations plus the final cache. -/

/-- What a cleanup hook does when called. -/
inductive HookRes where
  | ok
  | raises (msg : String)
deriving DecidableEq

/-- A cached component's cleanup surface. -/
structure ComponentObj where
  acloseAttr : Option HookRes
  closeAttr : Option HookRes
deriving DecidableEq

/-- One observable shutdown event: hook `m` of component `key` was
invoked; `failed` records that it raised (the exception is caught and
logged, never propagated). -/
inductive ShutdownEv where
  | called (key : String) (m : String) (failed : Bool)
deriving DecidableEq

/-- Whether a hook call raised. -/
def hookFailed : HookRes → Bool
  | HookRes.ok => false
  | HookRes.raises _ => true

/-- The inner `for method_name in ("aclose", "close")` loop: each
present hook is invoked inside `try/except Exception`, so both hooks
run when both exist and a raise is absorbed. -/
def componentShutdownEvents (key : String) (c : ComponentObj) : List ShutdownEv :=
  (match c.acloseAttr with
   | some r => [ShutdownEv.called key "aclose" (hookFailed r)]
   | none => []) ++
  (match c.closeAttr with
   | some r => [ShutdownEv.called key "close" (hookFailed r)]
   | none => [])

/-- `shutdown`: iterate the cache in order running the hook loop for
each entry, then `self._cache.clear()`.  Returns the invocation trace
and the final cache. -/
def shutdown (cache : List (String × ComponentObj)) :
    List ShutdownEv × List (String × ComponentObj) :=
  ((cache.map (fun kc => componentShutdownEvents kc.1 kc.2)).flatten, [])

/-! ## `AgentsContainer.create` kwargs assembly (agents_container.py lines 63-93) -/

/-- A value bound to one keyword argument of an agent constructor. -/
inductive KwVal where
  | configDict (d : List (String × PVal))
  | inst (i : Nat)
  | instMap (m : List (String × Nat))
deriving DecidableEq

/-- Resolve an alias-to-reference dict through `components.get`
(dict-comprehension order preserved; a raised exception propagates). -/
def resolveAliasMap (getF : String → Except CErr Nat) :
    List (String × String) → Except CErr (List (String × Nat))
  | [] => Except.ok []
  | (a, ref) :: rest =>
    match getF ref with
    | Except.error e => Except.error e
    | Except.ok i =>
      match resolveAliasMap getF rest with
      | Except.error e => Except.error e
      | Except.ok tl => Except.ok ((a, i) :: tl)

/-- The `for component_type, component_refs in components_dict.items()`
loop: a dict-valued group resolves each alias, a string-valued group
resolves directly; either way the group is assigned into `kwargs`
under the group name. -/
def addAgentGroups (getF : String → Except CErr Nat) :
    List (String × KwVal) → List (String × ComponentRefs) →
    Except CErr (List (String × KwVal))
  | kwargs, [] => Except.ok kwargs
  | kwargs, (gname, ComponentRefs.single ref) :: rest =>
    match getF ref with
    | Except.error e => Except.error e
    | Except.ok i => addAgentGroups getF (dictSet kwargs gname (KwVal.inst i)) rest
  | kwargs, (gname, ComponentRefs.multi m) :: rest =>
    match resolveAliasMap getF m with
    | Except.error e => Except.error e
    | Except.ok rm => addAgentGroups getF (dictSet kwargs gname (KwVal.instMap rm)) rest

/-- The kwargs built for one agent: `kwargs = {"config": {}}`, then
`kwargs["config"].update(constructor.config)` when that dict is truthy
(non-`None` and non-empty), then every declared component group is
resolved and assigned. -/
def buildAgentKwargs (getF : String → Except CErr Nat) (ac : AgentConstructorM) :
    Except CErr (List (String × KwVal)) :=
  let cfg :=
    match ac.config with
    | some c => if c.isEmpty then ([] : List (String × PVal)) else dictUpdate [] c
    | none => []
  let kwargs : List (String × KwVal) := [("config", KwVal.configDict cfg)]
  match ac.components with
  | none => Except.ok kwargs
  | some groups => addAgentGroups getF kwargs groups

/-! ## `UseCasesContainer.create` kwargs assembly (use_cases_container.py lines 56-103) -/

/-- A resolved dependency of a use case: a live instance, or the raw
reference string passed through when no components container is
available. -/
inductive UVal where
  | inst (i : Nat)
  | refStr (s : String)
deriving DecidableEq

/-- A value bound to one keyword argument of a use-case constructor:
either a collapsed single dependency or an alias-to-dependency dict. -/
inductive UKw where
  | bare (v : UVal)
  | aliasMap (m : List (String × UVal))
deriving DecidableEq

/-- Python `ref.replace("agents.", "")` on char lists: remove every
(left-to-right, non-overlapping) occurrence of the pattern `agents.`,
spelled out character by character. -/
def stripAgentsOcc : List Char → List Char
  | 'a' :: 'g' :: 'e' :: 'n' :: 't' :: 's' :: '.' :: rest => stripAgentsOcc rest
  | x :: xs => x :: stripAgentsOcc xs
  | [] => []

/-- `agents.get(ref.replace("agents.", ""))` for every alias of the
`agents` group. -/
def resolveAgentAliasMap (agentGet : String → Except CErr Nat) :
    List (String × String) → Except CErr (List (String × Nat))
  | [] => Except.ok []
  | (a, ref) :: rest =>
    match agentGet (String.mk (stripAgentsOcc ref.data)) with
    | Except.error e => Except.error e
    | Except.ok i =>
      match resolveAgentAliasMap agentGet rest with
      | Except.error e => Except.error e
      | Except.ok tl => Except.ok ((a, i) :: tl)

/-- Resolve one non-`agents` group: each alias goes through
`components.get` when a components container was supplied, else the
raw reference string is passed through (with a warning). -/
def resolveUseCaseGroup (compGet : String → Except CErr Nat) (hasComponents : Bool) :
    List (String × String) → Except CErr (List (String × UVal))
  | [] => Except.ok []
  | (a, ref) :: rest =>
    match (if hasComponents then
             match compGet ref with
             | Except.error e => Except.error e
             | Except.ok i => Except.ok (UVal.inst i)
           else Except.ok (UVal.refStr ref) : Except CErr UVal) with
    | Except.error e => Except.error e
    | Except.ok v =>
      match resolveUseCaseGroup compGet hasComponents rest with
      | Except.error e => Except.error e
      | Except.ok tl => Except.ok ((a, v) :: tl)

/-- Processing of one dependency group of a use case.  For the `agents`
group the resolved dict collapses to the bare keyword `agent` exactly
when it has a single entry aliased `agent`; for every other group the
resolved dict collapses to a bare value under the group name exactly
when it has a single entry whose alias equals the group name. -/
def useCaseGroupStep (agentGet compGet : String → Except CErr Nat)
    (hasComponents : Bool) (kwargs : List (String × UKw))
    (gname : String) (refs : List (String × String)) :
    Except CErr (List (String × UKw)) :=
  if gname = "agents" then
    match resolveAgentAliasMap agentGet refs with
    | Except.error e => Except.error e
    | Except.ok resolved =>
      match resolved with
      | [(a, i)] =>
        if a = "agent" then
          Except.ok (dictSet kwargs "agent" (UKw.bare (UVal.inst i)))
        else
          Except.ok (dictSet kwargs gname
            (UKw.aliasMap (resolved.map (fun p => (p.1, UVal.inst p.2)))))
      | _ =>
        Except.ok (dictSet kwargs gname
          (UKw.aliasMap (resolved.map (fun p => (p.1, UVal.inst p.2)))))
  else
    match resolveUseCaseGroup compGet hasComponents refs with
    | Except.error e => Except.error e
    | Except.ok resolved =>
      match resolved with
      | [(a, v)] =>
        if a = gname then Except.ok (dictSet kwargs gname (UKw.bare v))
        else Except.ok (dictSet kwargs gname (UKw.aliasMap resolved))
      | _ => Except.ok (dictSet kwargs gname (UKw.aliasMap resolved))

/-- The kwargs built for one use case: fold the group step over the
declared dependency groups, starting from the empty dict. -/
def buildUseCaseKwargs (agentGet compGet : String → Except CErr Nat)
    (hasComponents : Bool) :
    List (String × UKw) → List (String × List (String × String)) →
    Except CErr (List (String × UKw))
  | kwargs, [] => Except.ok kwargs
  | kwargs, (gname, refs) :: rest =>
    match useCaseGroupStep agentGet compGet hasComponents kwargs gname refs with
    | Except.error e => Except.error e
    | Except.ok kwargs2 => buildUseCaseKwargs agentGet compGet hasComponents kwargs2 rest

/-! ## Concrete fixtures used by witnesses and counterexamples -/

/-- Expansion environment where only the secrets directory knows `FOO`,
whose file ends in two newlines. -/
def envTwoNl : ExpandEnv :=
  ExpandEnv.mk (fun _ => none) (fun _ => none)
    (fun n => if n = "FOO" then some "secret-value\n\n" else none)

/-- Expansion environment where only the secrets directory knows `FOO`,
whose file ends in a single newline. -/
def envSingleNl : ExpandEnv :=
  ExpandEnv.mk (fun _ => none) (fun _ => none)
    (fun n => if n = "FOO" then some "secret-value\n" else none)

/-- Expansion environment where both the OS environment and the dotenv
file define `FOO`. -/
def envOsAndDotenv : ExpandEnv :=
  ExpandEnv.mk (fun n => if n = "FOO" then some "os-value" else none)
    (fun n => if n = "FOO" then some "dotenv-value" else none)
    (fun _ => none)

/-- A one-family components tree: `llms.langchain.groq` with a family
`api_key` and a single instance `default`. -/
def demoTree : ComponentsTree :=
  [("llms", [("langchain", [("groq",
    ProviderFamilyM.mk (ComponentConstructorM.mk "pkg.Groq" (some "abc123"))
      [("default", ComponentInstanceM.mk [("temperature", PVal.int 1)])])])])]

/-- Settings over `demoTree` with no agents or use cases. -/
def demoSettings : AppSettingsM := AppSettingsM.mk demoTree [] []

/-- A class with no factories whose constructor accepts the kwargs. -/
def demoCls : Cls :=
  Cls.mk none none (fun _ => Outcome.ok) (fun _ => Outcome.typeError "boom")

/-- Container environment binding `pkg.Groq` to `demoCls`. -/
def demoEnv : ContainerEnv :=
  ContainerEnv.mk demoTree (fun mc => if mc = "pkg.Groq" then some demoCls else none)

/-- A class whose constructor rejects arbitrary keyword arguments but
accepts a single `config` argument (spec scenario for strategy (d)). -/
def demoConfigCls : Cls :=
  Cls.mk none none
    (fun _ => Outcome.typeError "__init__() got an unexpected keyword argument: temperature")
    (fun _ => Outcome.ok)

/-- A cached component exposing both `aclose` and `close`, neither raising. -/
def demoBothHooks : ComponentObj :=
  ComponentObj.mk (some HookRes.ok) (some HookRes.ok)

/-- A two-component cache whose first component's `close` raises. -/
def demoShutdownCache : List (String × ComponentObj) :=
  [("bad", ComponentObj.mk none (some (HookRes.raises "boom"))),
   ("good", ComponentObj.mk none (some HookRes.ok))]

/-- A component resolution map used by the agent/use-case witnesses. -/
def demoGet : String → Except CErr Nat :=
  fun r => if r = "llms.langchain.groq.default" then Except.ok 5
    else Except.error (CErr.resolveErr (ResolveError.notFound r))

/-- An agent constructor declaring one `llms` group and no config dict. -/
def demoAgentCtor : AgentConstructorM :=
  AgentConstructorM.mk "pkg.Agent"
    (some [("llms", ComponentRefs.multi [("default", "llms.langchain.groq.default")])])
    none

/-- An agent resolution map (unused by the use-case witness's group). -/
def demoAgentGet : String → Except CErr Nat :=
  fun r => Except.error (CErr.resolveErr (ResolveError.notFound r))

/-! ## Shared helper lemmas -/

/-- Assigning under a different key does not change a lookup. -/
theorem lookupL_dictSet_ne {α : Type} (d : List (String × α)) (k key : String)
    (v : α) (h : k ≠ key) : lookupL (dictSet d k v) key = lookupL d key := by
  induction d with
  | nil => simp [dictSet, lookupL, h]
  | cons hd tl ih =>
    obtain ⟨k2, w⟩ := hd
    by_cases hk : k2 = k
    · subst hk
      simp [dictSet, lookupL, h]
    · simp only [dictSet, if_neg hk, lookupL]
      by_cases hky : k2 = key
      · simp [hky]
      · simp [hky, ih]

/-- Every event of one cached component's hook loop appears in the
full shutdown trace. -/
theorem mem_shutdown_trace {cache : List (String × ComponentObj)} {k : String}
    {c : ComponentObj} {e : ShutdownEv} (hm : (k, c) ∈ cache)
    (he : e ∈ componentShutdownEvents k c) : e ∈ (shutdown cache).1 := by
  simp only [shutdown, List.mem_flatten]
  exact ⟨componentShutdownEvents k c,
    List.mem_map_of_mem (fun kc => componentShutdownEvents kc.1 kc.2) hm, he⟩

/-- Expansion distributes over concatenation of the token list. -/
theorem expandvars_append (e : ExpandEnv) (strip : Bool) (a b : List YamlToken) :
    expandvars_with_secrets e strip (a ++ b) =
      expandvars_with_secrets e strip a ++ expandvars_with_secrets e strip b := by
  induction a with
  | nil => simp [expandvars_with_secrets]
  | cons t ts ih => simp [expandvars_with_secrets, ih, String.append_assoc]

/-- A malformed arity always yields the invalid-reference error. -/
theorem _resolve_component_arity_error (tree : ComponentsTree) (ref : String)
    (h : (splitOnChar '.' ref).length ≠ 4) :
    _resolve_component tree ref = Except.error (ResolveError.invalidRef ref) := by
  unfold _resolve_component
  rcases hsp : splitOnChar '.' ref with _ | ⟨a, _ | ⟨b, _ | ⟨c, _ | ⟨d, _ | ⟨e2, rest⟩⟩⟩⟩⟩
  all_goals try rfl
  simp [hsp] at h

/-- After a successful `get`, the normalised key is in the cache and
bound to the returned instance. -/
theorem getFuel_ok_cached {env : ContainerEnv} {n : Nat} {st st2 : ContainerState}
    {ref : String} {v : Nat}
    (h : getFuel env n st ref = Except.ok (v, st2)) :
    lookupL st2.cache (normalizeRef ref) = some v := by
  match n with
  | 0 => exact absurd h (by simp [getFuel])
  | Nat.succ n =>
    simp only [getFuel] at h
    split at h
    · rename_i v2 hv
      obtain ⟨rfl, rfl⟩ : v2 = v ∧ st = st2 := by
        constructor <;> [skip; skip] <;> cases h <;> rfl
      exact hv
    · split at h
      · cases h
      · split at h
        · cases h
        · split at h
          · cases h
          · split at h
            · cases h
              simp [lookupL]
            · cases h
            · cases h

/-- Groups whose names avoid a key leave that key's binding alone. -/
theorem addAgentGroups_lookup_preserved (getF : String → Except CErr Nat)
    (key : String) :
    ∀ (gs : List (String × ComponentRefs)) (kwargs kwargs2 : List (String × KwVal)),
    (∀ g ∈ gs, g.1 ≠ key) →
    addAgentGroups getF kwargs gs = Except.ok kwargs2 →
    lookupL kwargs2 key = lookupL kwargs key := by
  intro gs
  induction gs with
  | nil =>
    intro kwargs kwargs2 _ hok
    cases hok
    rfl
  | cons g rest ih =>
    intro kwargs kwargs2 hne hok
    obtain ⟨gname, refs⟩ := g
    have hg : gname ≠ key := hne (gname, refs) (List.mem_cons_self _ _)
    have hrest : ∀ g ∈ rest, g.1 ≠ key := fun g hgm => hne g (List.mem_cons_of_mem _ hgm)
    cases refs with
    | single ref =>
      simp only [addAgentGroups] at hok
      split at hok
      · cases hok
      · rename_i i _
        have := ih (dictSet kwargs gname (KwVal.inst i)) kwargs2 hrest hok
        rw [this, lookupL_dictSet_ne _ _ _ _ hg]
    | multi m =>
      simp only [addAgentGroups] at hok
      split at hok
      · cases hok
      · rename_i rm _
        have := ih (dictSet kwargs gname (KwVal.instMap rm)) kwargs2 hrest hok
        rw [this, lookupL_dictSet_ne _ _ _ _ hg]

/-! ## Claim theorems -/

/-- C1: In `ComponentsContainer._instantiate`, once the config is
resolved, the construction strategies are selected in the order
`build` factory, `create` factory, constructor with keyword arguments,
constructor with a single `config` argument: strategy (a) is used
whenever `build` is a callable attribute, (b) whenever `create` is and
`build` is not; otherwise the direct constructor runs, and the
`config=` fallback (d) is attempted exactly when (c) raises a
`TypeError` whose message indicates an unexpected keyword argument
(with the original error re-raised when (d) also raises `TypeError`);
every other failure of (c) propagates immediately without evaluating
(d). -/
theorem instantiate_strategy_chain_order (cls : Cls) (cfg : List (String × RVal)) :
    (∀ f, cls.buildAttr = some f →
      instantiateChain cls cfg = liftOutcome Strategy.build (f cfg)) ∧
    (cls.buildAttr = none → ∀ f, cls.createAttr = some f →
      instantiateChain cls cfg = liftOutcome Strategy.create (f cfg)) ∧
    (cls.buildAttr = none → cls.createAttr = none →
      cls.ctorKwargs cfg = Outcome.ok →
      instantiateChain cls cfg = ChainResult.ok Strategy.ctorKwargs) ∧
    (cls.buildAttr = none → cls.createAttr = none →
      ∀ m, cls.ctorKwargs cfg = Outcome.typeError m →
      msgIndicatesUnexpectedKw m = true →
      ((cls.ctorConfig cfg = Outcome.ok →
          instantiateChain cls cfg = ChainResult.ok Strategy.ctorConfig) ∧
       (∀ m2, cls.ctorConfig cfg = Outcome.typeError m2 →
          instantiateChain cls cfg = ChainResult.typeError m) ∧
       (∀ m2, cls.ctorConfig cfg = Outcome.exn m2 →
          instantiateChain cls cfg = ChainResult.exn m2))) ∧
    (cls.buildAttr = none → cls.createAttr = none →
      ∀ m, cls.ctorKwargs cfg = Outcome.typeError m →
      msgIndicatesUnexpectedKw m = false →
      ∀ g, instantiateChain (Cls.mk cls.buildAttr cls.createAttr cls.ctorKwargs g) cfg =
        ChainResult.typeError m) ∧
    (cls.buildAttr = none → cls.createAttr = none →
      ∀ m, cls.ctorKwargs cfg = Outcome.exn m →
      ∀ g, instantiateChain (Cls.mk cls.buildAttr cls.createAttr cls.ctorKwargs g) cfg =
        ChainResult.exn m) := by
  refine ⟨?_, ?_, ?_, ?_, ?_, ?_⟩
  · intro f hf
    simp [instantiateChain, hf]
  · intro hb f hf
    simp [instantiateChain, hb, hf]
  · intro hb hc hk
    simp [instantiateChain, hb, hc, hk]
  · intro hb hc m hk hmsg
    refine ⟨?_, ?_, ?_⟩
    · intro hcfg
      simp [instantiateChain, hb, hc, hk, hmsg, hcfg]
    · intro m2 hcfg
      simp [instantiateChain, hb, hc, hk, hmsg, hcfg]
    · intro m2 hcfg
      simp [instantiateChain, hb, hc, hk, hmsg, hcfg]
  · intro hb hc m hk hmsg g
    simp [instantiateChain, hb, hc, hk, hmsg]
  · intro hb hc m hk g
    simp [instantiateChain, hb, hc, hk]

/-- C1 witness: a class with no factories whose constructor rejects the
keyword arguments with an unexpected-keyword `TypeError` and accepts a
single `config` argument is built via strategy (d). -/
theorem instantiate_strategy_chain_order_witness :
    msgIndicatesUnexpectedKw
      "__init__() got an unexpected keyword argument: temperature" = true ∧
    instantiateChain demoConfigCls [("temperature", RVal.int 1)] =
      ChainResult.ok Strategy.ctorConfig := by
  refine ⟨by decide, ?_⟩
  exact ((instantiate_strategy_chain_order demoConfigCls
    [("temperature", RVal.int 1)]).2.2.2.1 rfl rfl _ rfl (by decide)).1 rfl

/-- C2 (code bug): the settings loader's source tuple contains only the
constructor source, the secret-file source and (when no constructor
kwargs were given) the YAML source; the environment-variable and
dotenv sources promised by the method's own docstring are never
returned, so tiers (2) and (3) of the claimed five-tier precedence do
not exist, and with constructor kwargs the YAML tier is dropped
entirely. -/
theorem settings_sources_omit_env_and_dotenv :
    settings_customise_sources true =
      [SettingsSource.initSettings, SettingsSource.fileSecretSettings,
       SettingsSource.yamlSource] ∧
    settings_customise_sources false =
      [SettingsSource.initSettings, SettingsSource.fileSecretSettings] ∧
    SettingsSource.envSettings ∉ settings_customise_sources true ∧
    SettingsSource.dotenvSettings ∉ settings_customise_sources true ∧
    SettingsSource.envSettings ∉ settings_customise_sources false ∧
    SettingsSource.dotenvSettings ∉ settings_customise_sources false ∧
    SettingsSource.yamlSource ∉ settings_customise_sources false := by
  decide

/-- C3 counterexample: a cached component exposing both `aclose` and
`close` has BOTH hooks invoked by `shutdown` (the method-name loop has
no early exit), refuting "never both on the same component". -/
theorem shutdown_both_hooks_counterexample :
    ShutdownEv.called "c1" "aclose" false ∈ (shutdown [("c1", demoBothHooks)]).1 ∧
    ShutdownEv.called "c1" "close" false ∈ (shutdown [("c1", demoBothHooks)]).1 := by
  decide

/-- C3 (amended): during shutdown, for each cached component the
container calls `aclose()` if that hook is present and also calls
`close()` if that hook is present — both hooks are invoked when a
component exposes both — and afterwards the cache is cleared. -/
theorem shutdown_invokes_aclose_and_close (cache : List (String × ComponentObj)) :
    (shutdown cache).2 = [] ∧
    ∀ k c, (k, c) ∈ cache →
      (∀ r, c.acloseAttr = some r →
        ShutdownEv.called k "aclose" (hookFailed r) ∈ (shutdown cache).1) ∧
      (∀ r, c.closeAttr = some r →
        ShutdownEv.called k "close" (hookFailed r) ∈ (shutdown cache).1) := by
  refine ⟨rfl, ?_⟩
  intro k c hm
  constructor
  · intro r hr
    refine mem_shutdown_trace hm ?_
    simp [componentShutdownEvents, hr]
  · intro r hr
    refine mem_shutdown_trace hm ?_
    cases hac : c.acloseAttr <;> simp [componentShutdownEvents, hr, hac]

/-- C3 witness: a component with both hooks present has both invoked,
and the cache ends empty. -/
theorem shutdown_invokes_aclose_and_close_witness :
    (shutdown [("c1", demoBothHooks)]).2 = [] ∧
    ShutdownEv.called "c1" "aclose" false ∈ (shutdown [("c1", demoBothHooks)]).1 := by
  have h := shutdown_invokes_aclose_and_close [("c1", demoBothHooks)]
  exact ⟨h.1, (h.2 "c1" demoBothHooks (by decide)).1 HookRes.ok rfl⟩

/-- C4 counterexample: with `<secrets_dir>/FOO` holding
`"secret-value\n\n"`, expansion yields `"secret-value"` — `rstrip`
removes BOTH trailing newlines — not the `"secret-value\n"` that
"only one trailing newline is removed" predicts. -/
theorem secret_expansion_single_strip_counterexample :
    replToken envTwoNl true (YamlToken.var "FOO" "$\x7bFOO\x7d") = "secret-value" ∧
    replToken envTwoNl true (YamlToken.var "FOO" "$\x7bFOO\x7d") ≠ "secret-value\n" := by
  constructor
  · rfl
  · decide

/-- C4 (amended): when a variable is absent from both the OS
environment and the dotenv values but a file named exactly `<var>`
exists in the secrets directory, the expanded value is that file's
contents with ALL trailing newlines stripped (so contents
`"secret-value\n"` yield `"secret-value"`, and contents
`"secret-value\n\n"` also yield `"secret-value"`). -/
theorem secret_expansion_rstrip_newlines (e : ExpandEnv) (v matched c : String)
    (h1 : e.osEnv v = none) (h2 : e.dotenv v = none)
    (h3 : e.secretsFiles v = some c) :
    replToken e true (YamlToken.var v matched) = rstripNewlines c ∧
    rstripNewlines "secret-value\n" = "secret-value" ∧
    rstripNewlines "secret-value\n\n" = "secret-value" := by
  refine ⟨?_, by decide, by decide⟩
  simp [replToken, chainGet, h1, h2, h3]

/-- C4 witness: a secrets file holding `"secret-value\n"` expands to
`"secret-value"`. -/
theorem secret_expansion_rstrip_newlines_witness :
    envSingleNl.secretsFiles "FOO" = some "secret-value\n" ∧
    replToken envSingleNl true (YamlToken.var "FOO" "$\x7bFOO\x7d") = "secret-value" := by
  have h := secret_expansion_rstrip_newlines envSingleNl "FOO" "$\x7bFOO\x7d"
    "secret-value\n" rfl rfl rfl
  exact ⟨rfl, h.1.trans h.2.1⟩

/-- C5: two reference strings that normalise to the same dotted key hit
the same cache entry: after a first successful `get`, the instance is
cached under the normalised key, and a later `get` with any separator
variant returns the identical instance with the container state —
including the instantiation counter — unchanged. -/
theorem get_normalized_singleton_cache (env : ContainerEnv) (n : Nat)
    (st st2 : ContainerState) (ref1 ref2 : String) (v : Nat)
    (hnorm : normalizeRef ref1 = normalizeRef ref2)
    (h : getFuel env n st ref1 = Except.ok (v, st2)) :
    lookupL st2.cache (normalizeRef ref1) = some v ∧
    ∀ m, getFuel env (m + 1) st2 ref2 = Except.ok (v, st2) := by
  have hc := getFuel_ok_cached h
  refine ⟨hc, ?_⟩
  intro m
  have hc2 : lookupL st2.cache (normalizeRef ref2) = some v := by
    rw [← hnorm]
    exact hc
  simp [getFuel, hc2]

/-- C5 witness: `get` on the slash form caches under the dotted key and
`get` on the dash form returns the same instance without changing the
state. -/
theorem get_normalized_singleton_cache_witness :
    getFuel demoEnv 1 (ContainerState.mk [] 0) "llms/langchain/groq/default" =
      Except.ok (0, ContainerState.mk [("llms.langchain.groq.default", 0)] 1) ∧
    normalizeRef "llms/langchain/groq/default" =
      normalizeRef "llms-langchain-groq-default" ∧
    getFuel demoEnv 3 (ContainerState.mk [("llms.langchain.groq.default", 0)] 1)
      "llms-langchain-groq-default" =
      Except.ok (0, ContainerState.mk [("llms.langchain.groq.default", 0)] 1) := by
  refine ⟨rfl, rfl, ?_⟩
  exact (get_normalized_singleton_cache demoEnv 1 (ContainerState.mk [] 0)
    (ContainerState.mk [("llms.langchain.groq.default", 0)] 1)
    "llms/langchain/groq/default" "llms-langchain-groq-default" 0 rfl rfl).2 2

/-- C6: a component reference whose normalised form does not split into
exactly 4 dot-separated segments is rejected with the
invalid-reference error (never truncated or padded), and a 4-segment
reference whose path segments all exist resolves to the module class
and the instance params (with the family `api_key` injected when
declared). -/
theorem resolve_component_arity (s : AppSettingsM) (ref : String) :
    ((splitOnChar '.' (normalizeRef ref)).length ≠ 4 →
      resolve_ref s ref "component" =
        Except.error (ResolveError.invalidRef (normalizeRef ref))) ∧
    (∀ ct fw fam inst fws fams pf ic,
      splitOnChar '.' (normalizeRef ref) = [ct, fw, fam, inst] →
      lookupL s.components ct = some fws →
      lookupL fws fw = some fams →
      lookupL fams fam = some pf →
      lookupL pf.instances inst = some ic →
      resolve_ref s ref "component" =
        Except.ok (Resolved.component pf.constructor.module_class
          (match pf.constructor.api_key with
           | some k => dictSet ic.params "api_key" (PVal.secret k)
           | none => ic.params))) := by
  constructor
  · intro h
    simp [resolve_ref, _resolve_component_arity_error s.components _ h]
  · intro ct fw fam inst fws fams pf ic hsp h1 h2 h3 h4
    have hres : _resolve_component s.components (normalizeRef ref) =
        Except.ok (pf.constructor.module_class,
          (match pf.constructor.api_key with
           | some k => dictSet ic.params "api_key" (PVal.secret k)
           | none => ic.params)) := by
      unfold _resolve_component
      rw [hsp]
      simp [h1, h2, h3, h4]
    simp [resolve_ref, hres]

/-- C6 witness: a 3-segment reference raises the invalid-reference
error and the 4-segment demo reference resolves to the module class
with the `api_key` injected. -/
theorem resolve_component_arity_witness :
    resolve_ref demoSettings "a.b.c" "component" =
      Except.error (ResolveError.invalidRef "a.b.c") ∧
    resolve_ref demoSettings "llms.langchain.groq.default" "component" =
      Except.ok (Resolved.component "pkg.Groq"
        [("temperature", PVal.int 1), ("api_key", PVal.secret "abc123")]) := by
  constructor
  · exact (resolve_component_arity demoSettings "a.b.c").1 (by decide)
  · exact (resolve_component_arity demoSettings "llms.langchain.groq.default").2
      "llms" "langchain" "groq" "default" _ _ _ _ (by decide) rfl rfl rfl rfl

/-- C7: expansion resolves each placeholder from the OS environment
first, else the dotenv values, else the secrets-directory file
(trailing newlines stripped), and leaves the matched text byte-for-byte
unchanged — raising nothing — when all three sources lack the
variable. -/
theorem expandvars_precedence_total (e : ExpandEnv) (v matched : String) :
    (∀ x, e.osEnv v = some x → replToken e true (YamlToken.var v matched) = x) ∧
    (e.osEnv v = none → ∀ x, e.dotenv v = some x →
      replToken e true (YamlToken.var v matched) = x) ∧
    (e.osEnv v = none → e.dotenv v = none → ∀ c, e.secretsFiles v = some c →
      replToken e true (YamlToken.var v matched) = rstripNewlines c) ∧
    (e.osEnv v = none → e.dotenv v = none → e.secretsFiles v = none →
      ∀ pre post,
        expandvars_with_secrets e true (pre ++ YamlToken.var v matched :: post) =
          expandvars_with_secrets e true pre ++ matched ++
            expandvars_with_secrets e true post) := by
  refine ⟨?_, ?_, ?_, ?_⟩
  · intro x hx
    simp [replToken, chainGet, hx]
  · intro h1 x hx
    simp [replToken, chainGet, h1, hx]
  · intro h1 h2 c hc
    simp [replToken, chainGet, h1, h2, hc]
  · intro h1 h2 h3 pre post
    rw [expandvars_append]
    simp [expandvars_with_secrets, replToken, chainGet, h1, h2, h3,
      String.append_assoc]

/-- C7 witness: with `FOO` set in both the OS environment and dotenv
the OS value wins, and an entirely unknown placeholder is preserved
unchanged inside its text. -/
theorem expandvars_precedence_total_witness :
    envOsAndDotenv.osEnv "FOO" = some "os-value" ∧
    replToken envOsAndDotenv true (YamlToken.var "FOO" "$\x7bFOO\x7d") = "os-value" ∧
    expandvars_with_secrets envOsAndDotenv true
      [YamlToken.lit "key: ", YamlToken.var "BAR" "$\x7bBAR\x7d"] =
      "key: " ++ "$\x7bBAR\x7d" := by
  refine ⟨rfl, ?_, ?_⟩
  · exact (expandvars_precedence_total envOsAndDotenv "FOO" "$\x7bFOO\x7d").1
      "os-value" rfl
  · have h := (expandvars_precedence_total envOsAndDotenv "BAR" "$\x7bBAR\x7d").2.2.2
      rfl rfl rfl [YamlToken.lit "key: "] []
    simpa [expandvars_with_secrets] using h

/-- C8: `shutdown` isolates per-component cleanup failures: every
present hook of every cached component is invoked whatever other
components' hooks do (a raise is caught, recorded as a failed call,
and never propagated), the cache is emptied regardless, and running
`shutdown` again on the now-empty cache is a no-op. -/
theorem shutdown_failure_isolation (cache : List (String × ComponentObj)) :
    (shutdown cache).2 = [] ∧
    (∀ k c r, (k, c) ∈ cache → c.acloseAttr = some r →
      ShutdownEv.called k "aclose" (hookFailed r) ∈ (shutdown cache).1) ∧
    (∀ k c r, (k, c) ∈ cache → c.closeAttr = some r →
      ShutdownEv.called k "close" (hookFailed r) ∈ (shutdown cache).1) ∧
    shutdown (shutdown cache).2 = ([], []) := by
  refine ⟨rfl, ?_, ?_, rfl⟩
  · intro k c r hm hr
    refine mem_shutdown_trace hm ?_
    simp [componentShutdownEvents, hr]
  · intro k c r hm hr
    refine mem_shutdown_trace hm ?_
    cases hac : c.acloseAttr <;> simp [componentShutdownEvents, hr, hac]

/-- C8 witness: with a raising `close` on the first component, the
second component's `close` is still invoked, the raising call is
recorded (not propagated), and the cache ends empty. -/
theorem shutdown_failure_isolation_witness :
    (shutdown demoShutdownCache).2 = [] ∧
    ShutdownEv.called "good" "close" false ∈ (shutdown demoShutdownCache).1 ∧
    ShutdownEv.called "bad" "close" true ∈ (shutdown demoShutdownCache).1 := by
  have h := shutdown_failure_isolation demoShutdownCache
  refine ⟨h.1, ?_, ?_⟩
  · exact h.2.2.1 "good" (ComponentObj.mk none (some HookRes.ok)) HookRes.ok
      (by decide) rfl
  · exact h.2.2.1 "bad" (ComponentObj.mk none (some (HookRes.raises "boom")))
      (HookRes.raises "boom") (by decide) rfl

/-- C9: `AgentsContainer.create` always passes a `config` keyword
argument to the agent constructor (provided no dependency group is
itself named `config`, which would overwrite it): the binding is
always a dict, and it is the empty dict exactly when the agent
declares no `constructor.config`. -/
theorem agent_kwargs_always_config (getF : String → Except CErr Nat)
    (ac : AgentConstructorM) (kwargs : List (String × KwVal))
    (hg : ∀ gs, ac.components = some gs → ∀ g ∈ gs, g.1 ≠ "config")
    (hok : buildAgentKwargs getF ac = Except.ok kwargs) :
    (∃ d, lookupL kwargs "config" = some (KwVal.configDict d)) ∧
    (ac.config = none → lookupL kwargs "config" = some (KwVal.configDict [])) := by
  simp only [buildAgentKwargs] at hok
  have hbase : ∀ d : List (String × PVal),
      lookupL [("config", KwVal.configDict d)] "config" = some (KwVal.configDict d) := by
    intro d
    simp [lookupL]
  cases hcomp : ac.components with
  | none =>
    rw [hcomp] at hok
    cases hok
    constructor
    · exact ⟨_, hbase _⟩
    · intro hnone
      rw [hnone]
      exact hbase []
  | some groups =>
    rw [hcomp] at hok
    have hpres := addAgentGroups_lookup_preserved getF "config" groups _ kwargs
      (hg groups hcomp) hok
    rw [hpres]
    constructor
    · exact ⟨_, hbase _⟩
    · intro hnone
      rw [hnone]
      exact hbase []

/-- C9 witness: an agent declaring an `llms` group and no config dict
is constructed with `config` bound to the empty dict. -/
theorem agent_kwargs_always_config_witness :
    buildAgentKwargs demoGet demoAgentCtor =
      Except.ok [("config", KwVal.configDict []),
                 ("llms", KwVal.instMap [("default", 5)])] ∧
    lookupL [("config", KwVal.configDict []),
             ("llms", KwVal.instMap [("default", 5)])] "config" =
      some (KwVal.configDict []) := by
    refine ⟨rfl, ?_⟩
    exact (agent_kwargs_always_config demoGet demoAgentCtor
      [("config", KwVal.configDict []), ("llms", KwVal.instMap [("default", 5)])]
      (by
        intro gs hgs g hgm
        simp only [demoAgentCtor, Option.some.injEq] at hgs
        subst hgs
        simp only [List.mem_singleton] at hgm
        subst hgm
        decide)
      rfl).2 rfl

/-- C10: `UseCasesContainer.create` applies the single-alias collapse to
every non-`agents` dependency group: a group resolving to exactly one
entry whose alias equals the group name is passed as the bare resolved
instance under that keyword, not as a one-entry alias dict. -/
theorem use_case_group_single_alias_collapse
    (agentGet compGet : String → Except CErr Nat)
    (kwargs : List (String × UKw)) (gname ref : String) (i : Nat)
    (hg : gname ≠ "agents") (hr : compGet ref = Except.ok i) :
    useCaseGroupStep agentGet compGet true kwargs gname [(gname, ref)] =
      Except.ok (dictSet kwargs gname (UKw.bare (UVal.inst i))) ∧
    buildUseCaseKwargs agentGet compGet true [] [(gname, [(gname, ref)])] =
      Except.ok [(gname, UKw.bare (UVal.inst i))] := by
  have hstep : ∀ kw : List (String × UKw),
      useCaseGroupStep agentGet compGet true kw gname [(gname, ref)] =
        Except.ok (dictSet kw gname (UKw.bare (UVal.inst i))) := by
    intro kw
    simp [useCaseGroupStep, hg, resolveUseCaseGroup, hr]
  refine ⟨hstep kwargs, ?_⟩
  simp only [buildUseCaseKwargs, hstep []]
  rfl

/-- C10 witness: a `content_retriever` group with the single alias
`content_retriever` collapses to the bare instance. -/
theorem use_case_group_single_alias_collapse_witness :
    demoGet "llms.langchain.groq.default" = Except.ok 5 ∧
    buildUseCaseKwargs demoAgentGet demoGet true []
      [("content_retriever", [("content_retriever", "llms.langchain.groq.default")])] =
      Except.ok [("content_retriever", UKw.bare (UVal.inst 5))] := by
  refine ⟨rfl, ?_⟩
  exact (use_case_group_single_alias_collapse demoAgentGet demoGet []
    "content_retriever" "llms.langchain.groq.default" 5 (by decide) rfl).2

end LearnAiAgents
